import Mathlib

/-!
Shallow embedding of the flux-validator repository: the document data model
(src/flux.rs, src/bin/flux-validator.rs, src/main.rs), the key-usage and
duplicate-document aggregation maps, the sops rotation subprocess calls, and
the per-document scan loops of the two binaries.

External effects are made explicit:
* subprocess invocations (`Command::new("sops").args([...])`) are recorded as
  the list of argument vectors handed to the sops command, in invocation
  order;
* `Command::output()` either fails to spawn (an I/O error, propagated by `?`
  in flux.rs and by `unwrap()` in flux-validator.rs) or returns an `Output`
  value carrying the subprocess exit status, which the code discards;
* YAML deserialization is a function from raw node data to `Except`;
* the Rust `HashMap<k, HashSet<PathBuf>>` aggregation maps are modelled as
  association lists whose value component is a duplicate-free list: `HashSet`
  insertion is insert-if-absent, `HashMap` entry update touches exactly the
  entry with the equal key.
-/

/-- SOPS helper struct (flux.rs lines 38-42): holds the first kms entry
arn, extracted by the serde-query `.kms.[0].arn` annotation. -/
structure Sops where
  arn : String
deriving DecidableEq

/-- Metadata helper struct (flux.rs lines 31-35): required name, optional
namespace (field `ns` here because `namespace` is a Lean keyword). -/
structure Metadata where
  name : String
  ns : Option String
deriving DecidableEq

/-- A k8s document (flux.rs lines 18-27): kind, metadata, optional sops
record.  Equality is the derived structural equality over all three fields,
exactly as the Rust `#[derive(Eq, PartialEq, Hash)]` compares and hashes all
fields. -/
structure Document where
  kind : String
  meta : Metadata
  sops : Option Sops
deriving DecidableEq

/-- `HashSet<PathBuf>::insert`: add the path only when absent. -/
def setInsert (p : String) (s : List String) : List String :=
  if p ∈ s then s else s ++ [p]

/-- Reading `map[k]` in a `HashMap<k, HashSet<PathBuf>>`: the path set bound
to `k`, or the empty set when `k` has no entry. -/
def lookupEntry {κ : Type} [DecidableEq κ] (k : κ) : List (κ × List String) → List String
  | [] => []
  | e :: rest => if e.1 = k then e.2 else lookupEntry k rest

/-- The map update both aggregation loops perform (flux.rs lines 85-93 and
120-129): if an entry for `k` exists, insert `p` into its set, otherwise
bind `k` to the singleton set of `p`. -/
def updateEntry {κ : Type} [DecidableEq κ] (k : κ) (p : String) :
    List (κ × List String) → List (κ × List String)
  | [] => [(k, [p])]
  | e :: rest =>
    if e.1 = k then (e.1, setInsert p e.2) :: rest else e :: updateEntry k p rest

/-- One document step of the key aggregation loop (flux.rs lines 84-94): a
document with a sops record files its path under the arn; a plain document
is skipped. -/
def kStep (path : String) (m : List (String × List String)) (d : Document) :
    List (String × List String) :=
  match d.sops with
  | some sops => updateEntry sops.arn path m
  | none => m

/-- `get_kms_keys` (flux.rs lines 78-98) over parsed file contents: fold the
key aggregation step over every document of every file. -/
def get_kms_keys (files : List (String × List Document)) : List (String × List String) :=
  files.foldl (fun m pf => pf.2.foldl (kStep pf.1) m) []

/-- One document step of the duplicate aggregation loop (flux.rs lines
119-129): every document (encrypted or not) files its path under its own
identity. -/
def dStep (path : String) (m : List (Document × List String)) (d : Document) :
    List (Document × List String) :=
  updateEntry d path m

/-- `get_dup_documents` (flux.rs lines 114-134) over parsed file contents. -/
def get_dup_documents (files : List (String × List Document)) : List (Document × List String) :=
  files.foldl (fun m pf => pf.2.foldl (dStep pf.1) m) []

/-- The report filter of both binaries (flux-validator.rs lines 153-165,
main.rs lines 107-119): `if path.len() <= 1 { continue; }` keeps exactly the
groups whose path set has more than one element. -/
def filterDups (m : List (Document × List String)) : List (Document × List String) :=
  m.filter (fun e => 1 < e.2.length)

/-- Argument vector of the decrypt call `sops -d -i <path>` (flux.rs line
103, flux-validator.rs line 99, main.rs line 64). -/
def sopsDecryptArgs (path : String) : List String :=
  ["-d", "-i", path]

/-- Argument vector of the encrypt call `sops -e -i -k <key> <path>`
(flux.rs line 108, flux-validator.rs lines 105-111). -/
def sopsEncryptArgs (key path : String) : List String :=
  ["-e", "-i", "-k", key, path]

/-- Argument vector of the encrypt call in main.rs lines 69-79: the args
array is `["-e", "-i", <kms_arn>]` - it carries the arn where sops expects a
positional file argument and names no `-k` flag and no path. -/
def mainEncryptArgs (kmsArn : String) : List String :=
  ["-e", "-i", kmsArn]

/-- What `Command::output()` returns when the subprocess spawned: captured
output with the subprocess exit code.  The rotation code never inspects it. -/
structure SopsOutput where
  exitCode : Int
deriving DecidableEq

/-- The I/O error produced when `Command::output()` fails to spawn. -/
abbrev IoError := String

/-- `rotate_kms_keys` (flux.rs lines 100-112), parametrised by the external
sops tool, which maps an argument vector to a spawn failure or a captured
output.  For each path, in list order: run `sops -d -i path`, then
`sops -e -i -k key path`; `?` propagates a spawn failure immediately, the
captured `Output` (including a non-zero exit status) is discarded.  The call
returns the Rust function result paired with the trace of invocations
attempted. -/
def rotate_kms_keys (tool : List String → Except IoError SopsOutput) (key : String) :
    List String → Except IoError Unit × List (List String)
  | [] => (Except.ok (), [])
  | p :: rest =>
    match tool (sopsDecryptArgs p) with
    | Except.error e => (Except.error e, [sopsDecryptArgs p])
    | Except.ok _ =>
      match tool (sopsEncryptArgs key p) with
      | Except.error e => (Except.error e, [sopsDecryptArgs p, sopsEncryptArgs key p])
      | Except.ok _ =>
        let r := rotate_kms_keys tool key rest
        (r.1, sopsDecryptArgs p :: sopsEncryptArgs key p :: r.2)

/-- Mutable state of the flux-validator.rs main loop: the two aggregation
maps, the `rotated` ledger (flux-validator.rs line 80), and the trace of
sops invocations issued so far. -/
structure VState where
  keys_used : List (String × List String)
  documents : List (Document × List String)
  rotated : List String
  trace : List (List String)
deriving DecidableEq

/-- One document iteration of flux-validator.rs main (lines 88-139): if the
document has a sops record, first rotate the file when `--rotate` is set and
`rotated.insert(path)` reports the path as new (lines 94-114), then insert
the path into `keys_used` under the arn (lines 117-125); in all cases insert
the path into `documents` under the document identity (lines 129-138). -/
def vStep (rotate : Bool) (kmsArn : String) (path : String) (st : VState) (d : Document) :
    VState :=
  let st :=
    match d.sops with
    | some sops =>
      let st :=
        if rotate ∧ path ∉ st.rotated then
          { st with rotated := path :: st.rotated,
                    trace := st.trace ++ [sopsDecryptArgs path, sopsEncryptArgs kmsArn path] }
        else st
      { st with keys_used := updateEntry sops.arn path st.keys_used }
    | none => st
  { st with documents := updateEntry d path st.documents }

/-- The flux-validator.rs main loop (lines 83-140) over parsed file
contents: fold the per-document step over every document of every file,
starting from empty maps, an empty ledger and an empty trace. -/
def validatorRun (rotate : Bool) (kmsArn : String) (files : List (String × List Document)) :
    VState :=
  files.foldl (fun st pf => pf.2.foldl (vStep rotate kmsArn pf.1) st) ⟨[], [], [], []⟩

/-- Mutable state of the main.rs main loop: the two aggregation maps and the
trace of sops invocations.  main.rs keeps no rotation ledger. -/
structure MainState where
  keys_used : List (String × List String)
  documents : List (Document × List String)
  trace : List (List String)
deriving DecidableEq

/-- One document iteration of main.rs main (lines 47-93): if the document
has a sops record, either insert the path into `keys_used` when `--rotate`
is not set (lines 52-59), or - when it is set - decrypt the path and run the
encrypt command of `mainEncryptArgs` (lines 60-82); in all cases insert the
path into `documents` (lines 86-92). -/
def mStep (rotate : Bool) (kmsArn : String) (path : String) (st : MainState) (d : Document) :
    MainState :=
  let st :=
    match d.sops with
    | some sops =>
      if ¬ rotate then
        { st with keys_used := updateEntry sops.arn path st.keys_used }
      else
        { st with trace := st.trace ++ [sopsDecryptArgs path, mainEncryptArgs kmsArn] }
    | none => st
  { st with documents := updateEntry d path st.documents }

/-- The main.rs main loop (lines 44-94) over parsed file contents. -/
def mainRun (rotate : Bool) (kmsArn : String) (files : List (String × List Document)) :
    MainState :=
  files.foldl (fun st pf => pf.2.foldl (mStep rotate kmsArn pf.1) st) ⟨[], [], []⟩

/-- Raw sops mapping of one YAML document before serde-query extraction:
whether `.kms.[0].arn` resolves to a string. -/
structure RawSops where
  kmsFirstArn : Option String
deriving DecidableEq

/-- One raw YAML document block as the serde_yaml Deserializer yields it: a
malformed block, or a mapping with the fields the Document struct reads. -/
inductive YamlNode where
  | malformed (msg : String)
  | node (kind : Option String) (metaName : Option String) (metaNs : Option String)
      (sops : Option RawSops)
deriving DecidableEq

/-- The deserialization error `Document::deserialize` returns. -/
inductive ParseError where
  | yamlError (msg : String)
  | missingField (field : String)
deriving DecidableEq

/-- `Document::deserialize` on one raw YAML document: a malformed block
fails with the underlying yaml cause; a missing `kind` or `metadata.name`
fails with a missing-field error; a missing `sops` mapping is not an error
and yields `sops := none`; a `sops` mapping without `.kms.[0].arn` fails
(serde-query requires the queried field). -/
def Document.deserialize : YamlNode → Except ParseError Document
  | YamlNode.malformed msg => Except.error (ParseError.yamlError msg)
  | YamlNode.node kind metaName metaNs sops =>
    match kind with
    | none => Except.error (ParseError.missingField "kind")
    | some k =>
      match metaName with
      | none => Except.error (ParseError.missingField "metadata.name")
      | some n =>
        match sops with
        | none => Except.ok ⟨k, ⟨n, metaNs⟩, none⟩
        | some raw =>
          match raw.kmsFirstArn with
          | none => Except.error (ParseError.missingField "sops.kms.0.arn")
          | some arn => Except.ok ⟨k, ⟨n, metaNs⟩, some ⟨arn⟩⟩

/-- Deserialize every document block of one file, stopping at the first
error, as the `for s in Deserializer::from_reader(f)` loops do with `?`. -/
def parseFile : List YamlNode → Except ParseError (List Document)
  | [] => Except.ok []
  | n :: rest => do
    let d ← Document.deserialize n
    let ds ← parseFile rest
    pure (d :: ds)

/-- Parse every file of the run, aborting the whole run at the first parse
error, as both binaries do (`Document::deserialize(s).map_err(Error::new)?`
returns the error from main). -/
def scanRun : List (String × List YamlNode) → Except ParseError (List (String × List Document))
  | [] => Except.ok []
  | pf :: rest => do
    let ds ← parseFile pf.2
    let r ← scanRun rest
    pure ((pf.1, ds) :: r)

/-- The merged scan result: the key-usage mapping and the filtered
duplicate-groups mapping. -/
structure Report where
  keyUsage : List (String × List String)
  duplicates : List (Document × List String)
deriving DecidableEq

/-- The read-only scan over parsed file contents: key aggregation,
duplicate detection, and the duplicate filter. -/
def runScan (files : List (String × List Document)) : Report :=
  { keyUsage := get_kms_keys files, duplicates := filterDups (get_dup_documents files) }

/-- The read-only scan over raw file contents: parse every file, then
aggregate. -/
def scanReport (raw : List (String × List YamlNode)) : Except ParseError Report :=
  (scanRun raw).map runScan

/-- A concrete encrypted document used in concrete evaluations. -/
def dEnc : Document := ⟨"Deployment", ⟨"web", some "prod"⟩, some ⟨"arn:aws:kms:1"⟩⟩

/-- A second encrypted document with the same key but a different kind. -/
def dEnc2 : Document := ⟨"Service", ⟨"web", some "prod"⟩, some ⟨"arn:aws:kms:1"⟩⟩

/-- A document with the same kind and metadata as `dEnc` but no sops record. -/
def dNoSops : Document := ⟨"Deployment", ⟨"web", some "prod"⟩, none⟩

/-! ### Helper lemmas about the set and map model -/

theorem mem_setInsert_self (p : String) (s : List String) : p ∈ setInsert p s := by
  unfold setInsert
  split
  · assumption
  · simp

theorem mem_setInsert_of_mem {q : String} {s : List String} (p : String) (h : q ∈ s) :
    q ∈ setInsert p s := by
  unfold setInsert
  split
  · exact h
  · simp [h]

theorem nodup_setInsert (p : String) {s : List String} (h : s.Nodup) :
    (setInsert p s).Nodup := by
  unfold setInsert
  split
  · exact h
  · next hns => simp [List.nodup_append, h, hns]

theorem lookupEntry_updateEntry_self {κ : Type} [DecidableEq κ] (k : κ) (p : String)
    (m : List (κ × List String)) :
    lookupEntry k (updateEntry k p m) = setInsert p (lookupEntry k m) := by
  induction m with
  | nil => simp [updateEntry, lookupEntry, setInsert]
  | cons e rest ih =>
    by_cases h : e.1 = k
    · simp [updateEntry, lookupEntry, h]
    · simp [updateEntry, lookupEntry, h, ih]

theorem lookupEntry_updateEntry_ne {κ : Type} [DecidableEq κ] {k j : κ} (p : String)
    (m : List (κ × List String)) (h : k ≠ j) :
    lookupEntry k (updateEntry j p m) = lookupEntry k m := by
  induction m with
  | nil => simp [updateEntry, lookupEntry, Ne.symm h]
  | cons e rest ih =>
    by_cases hj : e.1 = j
    · have hk : ¬ j = k := Ne.symm h
      simp [updateEntry, lookupEntry, hj, hk]
    · simp [updateEntry, lookupEntry, hj, ih]

theorem foldl_preserves {α β : Type} (P : β → Prop) (f : β → α → β) :
    ∀ (l : List α) (m : β), (∀ m x, P m → P (f m x)) → P m → P (l.foldl f m)
  | [], _, _, hm => hm
  | x :: rest, m, h, hm => foldl_preserves P f rest (f m x) h (h m x hm)

theorem mem_lookupEntry_kStep {k : String} {q : String} {m : List (String × List String)}
    (path : String) (d : Document) (h : q ∈ lookupEntry k m) :
    q ∈ lookupEntry k (kStep path m d) := by
  unfold kStep
  cases hs : d.sops with
  | none => exact h
  | some s =>
    by_cases ha : k = s.arn
    · subst ha
      rw [lookupEntry_updateEntry_self]
      exact mem_setInsert_of_mem path h
    · rw [lookupEntry_updateEntry_ne path m ha]
      exact h

theorem nodup_lookupEntry_kStep {m : List (String × List String)}
    (path : String) (d : Document) (h : ∀ k, (lookupEntry k m).Nodup) :
    ∀ k, (lookupEntry k (kStep path m d)).Nodup := by
  intro k
  unfold kStep
  cases hs : d.sops with
  | none => exact h k
  | some s =>
    by_cases ha : k = s.arn
    · subst ha
      rw [lookupEntry_updateEntry_self]
      exact nodup_setInsert path (h _)
    · rw [lookupEntry_updateEntry_ne path m ha]
      exact h k

/-! ### Projection lemmas: the binaries' loops compute the library maps -/

theorem vStep_keys (rotate : Bool) (kmsArn path : String) (st : VState) (d : Document) :
    (vStep rotate kmsArn path st d).keys_used = kStep path st.keys_used d := by
  unfold vStep kStep
  cases d.sops with
  | none => rfl
  | some s =>
    simp only []
    split <;> rfl

theorem vStep_documents (rotate : Bool) (kmsArn path : String) (st : VState) (d : Document) :
    (vStep rotate kmsArn path st d).documents = dStep path st.documents d := by
  unfold vStep dStep
  cases d.sops with
  | none => rfl
  | some s =>
    simp only []
    split <;> rfl

theorem mStep_keys_scan (kmsArn path : String) (st : MainState) (d : Document) :
    (mStep false kmsArn path st d).keys_used = kStep path st.keys_used d := by
  unfold mStep kStep
  cases d.sops <;> rfl

theorem mStep_keys_rotate (kmsArn path : String) (st : MainState) (d : Document) :
    (mStep true kmsArn path st d).keys_used = st.keys_used := by
  unfold mStep
  cases d.sops <;> rfl

theorem mStep_documents (rotate : Bool) (kmsArn path : String) (st : MainState) (d : Document) :
    (mStep rotate kmsArn path st d).documents = dStep path st.documents d := by
  unfold mStep dStep
  cases d.sops with
  | none => rfl
  | some s => cases rotate <;> rfl

theorem foldl_vStep_keys (rotate : Bool) (kmsArn path : String) (docs : List Document)
    (st : VState) :
    (docs.foldl (vStep rotate kmsArn path) st).keys_used
      = docs.foldl (kStep path) st.keys_used := by
  induction docs generalizing st with
  | nil => rfl
  | cons d rest ih => simp [List.foldl_cons, ih, vStep_keys]

theorem foldl_vStep_documents (rotate : Bool) (kmsArn path : String) (docs : List Document)
    (st : VState) :
    (docs.foldl (vStep rotate kmsArn path) st).documents
      = docs.foldl (dStep path) st.documents := by
  induction docs generalizing st with
  | nil => rfl
  | cons d rest ih => simp [List.foldl_cons, ih, vStep_documents]

theorem foldl_mStep_keys_scan (kmsArn path : String) (docs : List Document) (st : MainState) :
    (docs.foldl (mStep false kmsArn path) st).keys_used
      = docs.foldl (kStep path) st.keys_used := by
  induction docs generalizing st with
  | nil => rfl
  | cons d rest ih => simp [List.foldl_cons, ih, mStep_keys_scan]

theorem foldl_mStep_keys_rotate (kmsArn path : String) (docs : List Document) (st : MainState) :
    (docs.foldl (mStep true kmsArn path) st).keys_used = st.keys_used := by
  induction docs generalizing st with
  | nil => rfl
  | cons d rest ih => simp [List.foldl_cons, ih, mStep_keys_rotate]

theorem foldl_mStep_documents (rotate : Bool) (kmsArn path : String) (docs : List Document)
    (st : MainState) :
    (docs.foldl (mStep rotate kmsArn path) st).documents
      = docs.foldl (dStep path) st.documents := by
  induction docs generalizing st with
  | nil => rfl
  | cons d rest ih => simp [List.foldl_cons, ih, mStep_documents]

theorem validatorRun_keys (rotate : Bool) (kmsArn : String)
    (files : List (String × List Document)) :
    (validatorRun rotate kmsArn files).keys_used = get_kms_keys files := by
  unfold validatorRun get_kms_keys
  suffices h : ∀ st : VState,
      (files.foldl (fun st pf => pf.2.foldl (vStep rotate kmsArn pf.1) st) st).keys_used
        = files.foldl (fun m pf => pf.2.foldl (kStep pf.1) m) st.keys_used by
    exact h ⟨[], [], [], []⟩
  induction files with
  | nil => intro st; rfl
  | cons pf rest ih =>
    intro st
    simp [List.foldl_cons, ih, foldl_vStep_keys]

theorem validatorRun_documents (rotate : Bool) (kmsArn : String)
    (files : List (String × List Document)) :
    (validatorRun rotate kmsArn files).documents = get_dup_documents files := by
  unfold validatorRun get_dup_documents
  suffices h : ∀ st : VState,
      (files.foldl (fun st pf => pf.2.foldl (vStep rotate kmsArn pf.1) st) st).documents
        = files.foldl (fun m pf => pf.2.foldl (dStep pf.1) m) st.documents by
    exact h ⟨[], [], [], []⟩
  induction files with
  | nil => intro st; rfl
  | cons pf rest ih =>
    intro st
    simp [List.foldl_cons, ih, foldl_vStep_documents]

theorem mainRun_keys_scan (kmsArn : String) (files : List (String × List Document)) :
    (mainRun false kmsArn files).keys_used = get_kms_keys files := by
  unfold mainRun get_kms_keys
  suffices h : ∀ st : MainState,
      (files.foldl (fun st pf => pf.2.foldl (mStep false kmsArn pf.1) st) st).keys_used
        = files.foldl (fun m pf => pf.2.foldl (kStep pf.1) m) st.keys_used by
    exact h ⟨[], [], []⟩
  induction files with
  | nil => intro st; rfl
  | cons pf rest ih =>
    intro st
    simp [List.foldl_cons, ih, foldl_mStep_keys_scan]

theorem mainRun_keys_rotate (kmsArn : String) (files : List (String × List Document)) :
    (mainRun true kmsArn files).keys_used = [] := by
  unfold mainRun
  suffices h : ∀ st : MainState,
      (files.foldl (fun st pf => pf.2.foldl (mStep true kmsArn pf.1) st) st).keys_used
        = st.keys_used by
    exact h ⟨[], [], []⟩
  induction files with
  | nil => intro st; rfl
  | cons pf rest ih =>
    intro st
    simp [List.foldl_cons, ih, foldl_mStep_keys_rotate]

theorem mainRun_documents (rotate : Bool) (kmsArn : String)
    (files : List (String × List Document)) :
    (mainRun rotate kmsArn files).documents = get_dup_documents files := by
  unfold mainRun get_dup_documents
  suffices h : ∀ st : MainState,
      (files.foldl (fun st pf => pf.2.foldl (mStep rotate kmsArn pf.1) st) st).documents
        = files.foldl (fun m pf => pf.2.foldl (dStep pf.1) m) st.documents by
    exact h ⟨[], [], []⟩
  induction files with
  | nil => intro st; rfl
  | cons pf rest ih =>
    intro st
    simp [List.foldl_cons, ih, foldl_mStep_documents]

/-! ### Claim theorems -/

/-- Claim C1 (code-bug evaluation): on a file holding two encrypted documents,
the main.rs rotation loop issues the decrypt call and the encrypt call twice
(once per encrypted document, since it keeps no ledger), while the
flux-validator loop with its `rotated` ledger issues each exactly once.  The
claim states exactly once for every rotation run; the main.rs binary violates
it. -/
theorem claim_c1 :
    ((mainRun true "arn:new" [("a-sops.yml", [dEnc, dEnc2])]).trace.count
        (sopsDecryptArgs "a-sops.yml") = 2
      ∧ (mainRun true "arn:new" [("a-sops.yml", [dEnc, dEnc2])]).trace.count
        (mainEncryptArgs "arn:new") = 2)
  ∧ ((validatorRun true "arn:new" [("a-sops.yml", [dEnc, dEnc2])]).trace.count
        (sopsDecryptArgs "a-sops.yml") = 1
      ∧ (validatorRun true "arn:new" [("a-sops.yml", [dEnc, dEnc2])]).trace.count
        (sopsEncryptArgs "arn:new" "a-sops.yml") = 1) := by
  decide

/-- Claim C2 counterexample: in the main.rs binary with rotation requested, a
file with an encrypted document contributes nothing to the key-usage map -
the map stays empty, so the file path is not under the key's entry, refuting
that both mappings are computed in both modes. -/
theorem claim_c2_counterexample :
    (mainRun true "arn:new" [("a-sops.yml", [dEnc])]).keys_used = []
  ∧ "a-sops.yml" ∉ lookupEntry "arn:aws:kms:1"
      (mainRun true "arn:new" [("a-sops.yml", [dEnc])]).keys_used := by
  decide

/-- Claim C2 (amended): the flux-validator binary computes both the key-usage
map and the duplicate-groups map in both modes (they equal the library
aggregations of flux.rs); the main.rs binary computes the duplicate-groups
map in both modes and the key-usage map in scan mode, but leaves the
key-usage map empty when rotation is requested. -/
theorem claim_c2 (rotate : Bool) (kmsArn : String) (files : List (String × List Document)) :
    (validatorRun rotate kmsArn files).keys_used = get_kms_keys files
  ∧ (validatorRun rotate kmsArn files).documents = get_dup_documents files
  ∧ (mainRun rotate kmsArn files).documents = get_dup_documents files
  ∧ (mainRun false kmsArn files).keys_used = get_kms_keys files
  ∧ (mainRun true kmsArn files).keys_used = [] :=
  ⟨validatorRun_keys rotate kmsArn files, validatorRun_documents rotate kmsArn files,
   mainRun_documents rotate kmsArn files, mainRun_keys_scan kmsArn files,
   mainRun_keys_rotate kmsArn files⟩

/-- Claim C3 (code-bug evaluation): rotating one encrypted file in the
main.rs binary issues the decrypt call on the file's path but an encrypt
call whose argument vector is `["-e", "-i", "arn:new"]` - it does not
contain the file's path (and passes the key positionally, without `-k`).
The library function `rotate_kms_keys` of flux.rs, by contrast, passes both
the key (behind `-k`) and the path to the encrypt call. -/
theorem claim_c3 :
    (mainRun true "arn:new" [("a-sops.yml", [dEnc])]).trace
      = [sopsDecryptArgs "a-sops.yml", mainEncryptArgs "arn:new"]
  ∧ "a-sops.yml" ∉ mainEncryptArgs "arn:new"
  ∧ (rotate_kms_keys (fun _ => Except.ok ⟨0⟩) "arn:new" ["a-sops.yml"]).2
      = [sopsDecryptArgs "a-sops.yml", sopsEncryptArgs "arn:new" "a-sops.yml"]
  ∧ "a-sops.yml" ∈ sopsEncryptArgs "arn:new" "a-sops.yml"
  ∧ "arn:new" ∈ sopsEncryptArgs "arn:new" "a-sops.yml" := by
  refine ⟨by decide, by decide, rfl, by decide, by decide⟩

/-- Claim C4 counterexample: the rotation code never inspects the sops exit
status, so a tool run that fails with exit code 1 on every call still makes
`rotate_kms_keys` return success - the failure is swallowed, not surfaced;
and a spawn failure on the first file's decrypt aborts the whole loop, so
the second file's rotation is never attempted. -/
theorem claim_c4_counterexample :
    (rotate_kms_keys (fun _ => Except.ok ⟨1⟩) "arn:new" ["a-sops.yml"]).1 = Except.ok ()
  ∧ rotate_kms_keys
      (fun args => if args = sopsDecryptArgs "a-sops.yml"
        then Except.error "spawn failure" else Except.ok ⟨0⟩)
      "arn:new" ["a-sops.yml", "b-sops.yml"]
      = (Except.error "spawn failure", [sopsDecryptArgs "a-sops.yml"]) := by
  exact ⟨rfl, rfl⟩

/-- Claim C4 (amended): `rotate_kms_keys` propagates only a spawn failure of
the external tool, as the bare underlying I/O error with no file or step
name, and such a failure aborts the remaining files' rotation (the trace
stops at the failing call); when every tool call spawns, the function
returns success unconditionally - a non-zero exit status of the tool is
ignored, so a tool-level decrypt or encrypt failure is swallowed. -/
theorem claim_c4 :
    (∀ (tool : List String → Except IoError SopsOutput) (key p : String)
        (rest : List String) (e : IoError),
        tool (sopsDecryptArgs p) = Except.error e →
        rotate_kms_keys tool key (p :: rest) = (Except.error e, [sopsDecryptArgs p]))
  ∧ (∀ (tool : List String → Except IoError SopsOutput) (key p : String)
        (rest : List String) (o : SopsOutput) (e : IoError),
        tool (sopsDecryptArgs p) = Except.ok o →
        tool (sopsEncryptArgs key p) = Except.error e →
        rotate_kms_keys tool key (p :: rest)
          = (Except.error e, [sopsDecryptArgs p, sopsEncryptArgs key p]))
  ∧ (∀ (tool : List String → Except IoError SopsOutput) (key : String)
        (paths : List String),
        (∀ a, ∃ o, tool a = Except.ok o) →
        (rotate_kms_keys tool key paths).1 = Except.ok ()) := by
  refine ⟨?_, ?_, ?_⟩
  · intro tool key p rest e h
    simp [rotate_kms_keys, h]
  · intro tool key p rest o e h1 h2
    simp [rotate_kms_keys, h1, h2]
  · intro tool key paths h
    induction paths with
    | nil => rfl
    | cons p rest ih =>
      obtain ⟨o1, h1⟩ := h (sopsDecryptArgs p)
      obtain ⟨o2, h2⟩ := h (sopsEncryptArgs key p)
      simp [rotate_kms_keys, h1, h2, ih]

/-- Witness for claim C4's theorem at concrete inputs: a tool that always
fails to spawn makes the run abort at the first decrypt, and a tool that
always spawns makes the run succeed. -/
theorem claim_c4_witness :
    rotate_kms_keys (fun _ => Except.error "boom") "k" ["a-sops.yml"]
      = (Except.error "boom", [sopsDecryptArgs "a-sops.yml"])
  ∧ (rotate_kms_keys (fun _ => Except.ok ⟨0⟩) "k" ["a-sops.yml"]).1 = Except.ok () :=
  ⟨claim_c4.1 (fun _ => Except.error "boom") "k" "a-sops.yml" [] "boom" rfl,
   claim_c4.2.2 (fun _ => Except.ok ⟨0⟩) "k" ["a-sops.yml"] (fun _ => ⟨⟨0⟩, rfl⟩)⟩

/-- Claim C9: the read-only scan is a pure function of the file snapshot -
it performs no writes - so running it twice over the same unchanged raw file
list yields the same parse outcome, the same key-usage mapping and the same
filtered duplicate-groups mapping. -/
theorem claim_c9 (raw : List (String × List YamlNode)) :
    scanReport raw = scanReport raw := rfl

/-! ### Invariants of the key aggregation map (for claim C5) -/

theorem get_kms_keys_nodup (files : List (String × List Document)) (k : String) :
    (lookupEntry k (get_kms_keys files)).Nodup := by
  have h := foldl_preserves (fun m => ∀ j, (lookupEntry j m).Nodup)
      (fun m pf => pf.2.foldl (kStep pf.1) m) files []
      (fun m pf hm => foldl_preserves (fun m2 => ∀ j, (lookupEntry j m2).Nodup)
          (kStep pf.1) pf.2 m
          (fun m2 d hm2 => nodup_lookupEntry_kStep pf.1 d hm2) hm)
      (fun j => by simp [lookupEntry])
  exact h k

theorem mem_lookupEntry_foldl_kStep (path : String) (docs : List Document) (key : String)
    (henc : ∃ d ∈ docs, d.sops = some ⟨key⟩) (m : List (String × List String)) :
    path ∈ lookupEntry key (docs.foldl (kStep path) m) := by
  induction docs generalizing m with
  | nil => simp at henc
  | cons d rest ih =>
    rcases henc with ⟨d0, hd0, hs⟩
    rw [List.foldl_cons]
    rcases List.mem_cons.mp hd0 with h | h
    · subst h
      have hstep : path ∈ lookupEntry key (kStep path m d0) := by
        simp only [kStep, hs]
        rw [lookupEntry_updateEntry_self]
        exact mem_setInsert_self path _
      exact foldl_preserves (fun m2 => path ∈ lookupEntry key m2) (kStep path) rest _
        (fun m2 d2 hm2 => mem_lookupEntry_kStep path d2 hm2) hstep
    · exact ih ⟨d0, h, hs⟩ (kStep path m d)

theorem mem_lookupEntry_get_kms_keys (files : List (String × List Document))
    (fpath : String) (docs : List Document) (key : String)
    (hmem : (fpath, docs) ∈ files)
    (henc : ∃ d ∈ docs, d.sops = some ⟨key⟩) :
    fpath ∈ lookupEntry key (get_kms_keys files) := by
  obtain ⟨l1, l2, rfl⟩ := List.append_of_mem hmem
  unfold get_kms_keys
  rw [List.foldl_append, List.foldl_cons]
  exact foldl_preserves (fun m => fpath ∈ lookupEntry key m)
    (fun m pf => pf.2.foldl (kStep pf.1) m) l2 _
    (fun m pf hm => foldl_preserves (fun m2 => fpath ∈ lookupEntry key m2)
        (kStep pf.1) pf.2 m
        (fun m2 d hm2 => mem_lookupEntry_kStep pf.1 d hm2) hm)
    (mem_lookupEntry_foldl_kStep fpath docs key henc _)

/-- Claim C5: when a file with at least one sops document under key K occurs
in the file list, the key-usage map of `get_kms_keys` - and equally the
`keys_used` map the flux-validator loop builds - holds the file's path under
K exactly once (set semantics), however many of the file's documents carry
K. -/
theorem claim_c5 (rotate : Bool) (kmsArn : String)
    (files : List (String × List Document)) (fpath : String)
    (docs : List Document) (key : String)
    (hmem : (fpath, docs) ∈ files)
    (henc : ∃ d ∈ docs, d.sops = some ⟨key⟩) :
    (lookupEntry key (get_kms_keys files)).count fpath = 1
  ∧ (lookupEntry key (validatorRun rotate kmsArn files).keys_used).count fpath = 1 := by
  have hk := mem_lookupEntry_get_kms_keys files fpath docs key hmem henc
  constructor
  · exact List.count_eq_one_of_mem (get_kms_keys_nodup files key) hk
  · rw [validatorRun_keys]
    exact List.count_eq_one_of_mem (get_kms_keys_nodup files key) hk

/-- Witness for claim C5: one file with two encrypted documents under the
same key contributes its path exactly once. -/
theorem claim_c5_witness :
    ("a-sops.yml", [dEnc, dEnc2]) ∈ [("a-sops.yml", [dEnc, dEnc2])]
  ∧ (lookupEntry "arn:aws:kms:1" (get_kms_keys [("a-sops.yml", [dEnc, dEnc2])])).count
      "a-sops.yml" = 1 :=
  ⟨by decide,
   (claim_c5 false "arn:new" [("a-sops.yml", [dEnc, dEnc2])] "a-sops.yml" [dEnc, dEnc2]
      "arn:aws:kms:1" (by decide) (by decide)).1⟩

/-- Claim C6: two documents are equal - and thus grouped together by the
duplicate aggregation - exactly when their kind, their full metadata record
(name and namespace) and their full sops record (arn, or its absence) all
agree; on a two-file list the second file's path lands in the first
document's group precisely under that condition. -/
theorem claim_c6 (d1 d2 : Document) (p1 p2 : String) (hne : p1 ≠ p2) :
    ((d1 = d2) ↔ (d1.kind = d2.kind ∧ d1.meta.name = d2.meta.name
        ∧ d1.meta.ns = d2.meta.ns ∧ d1.sops = d2.sops))
  ∧ (p2 ∈ lookupEntry d1 (get_dup_documents [(p1, [d1]), (p2, [d2])])
      ↔ (d1.kind = d2.kind ∧ d1.meta.name = d2.meta.name
        ∧ d1.meta.ns = d2.meta.ns ∧ d1.sops = d2.sops)) := by
  have hid : (d1 = d2) ↔ (d1.kind = d2.kind ∧ d1.meta.name = d2.meta.name
      ∧ d1.meta.ns = d2.meta.ns ∧ d1.sops = d2.sops) := by
    obtain ⟨k1, ⟨n1, ns1⟩, s1⟩ := d1
    obtain ⟨k2, ⟨n2, ns2⟩, s2⟩ := d2
    simp [Document.mk.injEq, Metadata.mk.injEq, and_assoc]
  refine ⟨hid, ?_⟩
  rw [← hid]
  by_cases h : d1 = d2
  · subst h
    simp [get_dup_documents, dStep, updateEntry, lookupEntry, setInsert, Ne.symm hne]
  · simp [get_dup_documents, dStep, updateEntry, lookupEntry, h, Ne.symm h, Ne.symm hne]

/-- Witness for claim C6: two documents of the same kind and metadata where
one has a sops record and the other lacks it are not grouped together. -/
theorem claim_c6_witness :
    ("a-sops.yml" : String) ≠ "b-sops.yml"
  ∧ (((dEnc = dNoSops) ↔ (dEnc.kind = dNoSops.kind ∧ dEnc.meta.name = dNoSops.meta.name
        ∧ dEnc.meta.ns = dNoSops.meta.ns ∧ dEnc.sops = dNoSops.sops))
    ∧ ("b-sops.yml" ∈ lookupEntry dEnc
          (get_dup_documents [("a-sops.yml", [dEnc]), ("b-sops.yml", [dNoSops])])
        ↔ (dEnc.kind = dNoSops.kind ∧ dEnc.meta.name = dNoSops.meta.name
          ∧ dEnc.meta.ns = dNoSops.meta.ns ∧ dEnc.sops = dNoSops.sops))) :=
  ⟨by decide, claim_c6 dEnc dNoSops "a-sops.yml" "b-sops.yml" (by decide)⟩

/-- Claim C7: the report filter of the binaries drops every duplicate group
whose path set has exactly one element and keeps every group whose path set
has at least two. -/
theorem claim_c7 (files : List (String × List Document)) (g : Document × List String)
    (hg : g ∈ get_dup_documents files) :
    (g.2.length = 1 → g ∉ filterDups (get_dup_documents files))
  ∧ (2 ≤ g.2.length → g ∈ filterDups (get_dup_documents files)) := by
  constructor
  · intro h1 hmem
    rw [filterDups, List.mem_filter] at hmem
    have := hmem.2
    simp [h1] at this
  · intro h2
    rw [filterDups, List.mem_filter]
    refine ⟨hg, ?_⟩
    simpa using h2

/-- Witness for claim C7: a group fed by two files stays in the filtered
report. -/
theorem claim_c7_witness :
    (dEnc, ["a-sops.yml", "b-sops.yml"])
      ∈ get_dup_documents [("a-sops.yml", [dEnc]), ("b-sops.yml", [dEnc])]
  ∧ 2 ≤ (["a-sops.yml", "b-sops.yml"] : List String).length
  ∧ (dEnc, ["a-sops.yml", "b-sops.yml"])
      ∈ filterDups (get_dup_documents [("a-sops.yml", [dEnc]), ("b-sops.yml", [dEnc])]) :=
  ⟨by decide, by decide,
   (claim_c7 [("a-sops.yml", [dEnc]), ("b-sops.yml", [dEnc])]
      (dEnc, ["a-sops.yml", "b-sops.yml"]) (by decide)).2 (by decide)⟩

/-! ### Parsing behaviour (claim C8) and rotation trace counts (claim C10) -/

/-- Claim C8: a raw document with kind and metadata.name but no sops mapping
deserializes successfully into a Document without a sops record; a raw
document missing kind, or missing metadata.name, and a malformed block each
fail with a ParseError carrying the cause; and one failing file aborts the
whole run, as both binaries propagate the deserialization error out of
main. -/
theorem claim_c8 :
    (∀ (k n : String) (metaNs : Option String),
        Document.deserialize (YamlNode.node (some k) (some n) metaNs none)
          = Except.ok ⟨k, ⟨n, metaNs⟩, none⟩)
  ∧ (∀ (metaName : Option String) (metaNs : Option String) (sops : Option RawSops),
        Document.deserialize (YamlNode.node none metaName metaNs sops)
          = Except.error (ParseError.missingField "kind"))
  ∧ (∀ (k : String) (metaNs : Option String) (sops : Option RawSops),
        Document.deserialize (YamlNode.node (some k) none metaNs sops)
          = Except.error (ParseError.missingField "metadata.name"))
  ∧ (∀ msg : String,
        Document.deserialize (YamlNode.malformed msg)
          = Except.error (ParseError.yamlError msg))
  ∧ (∀ (p : String) (nodes : List YamlNode) (rest : List (String × List YamlNode))
        (e : ParseError),
        parseFile nodes = Except.error e →
        scanRun ((p, nodes) :: rest) = Except.error e) := by
  refine ⟨fun k n metaNs => rfl, fun metaName metaNs sops => rfl,
    fun k metaNs sops => rfl, fun msg => rfl, ?_⟩
  intro p nodes rest e h
  simp only [scanRun, h]
  rfl

/-- Witness for claim C8 at concrete inputs: an unencrypted document parses,
and a file whose document lacks metadata.name aborts the run with the
missing-field error. -/
theorem claim_c8_witness :
    Document.deserialize (YamlNode.node (some "Deployment") (some "web") (some "prod") none)
      = Except.ok ⟨"Deployment", ⟨"web", some "prod"⟩, none⟩
  ∧ parseFile [YamlNode.node (some "Deployment") none none none]
      = Except.error (ParseError.missingField "metadata.name")
  ∧ scanRun [("a-sops.yml", [YamlNode.node (some "Deployment") none none none])]
      = Except.error (ParseError.missingField "metadata.name") :=
  ⟨claim_c8.1 "Deployment" "web" (some "prod"), rfl,
   claim_c8.2.2.2.2 "a-sops.yml" [YamlNode.node (some "Deployment") none none none] []
     (ParseError.missingField "metadata.name") rfl⟩

theorem count_trace_decrypt (key p : String) (paths : List String) :
    (paths.flatMap (fun q => [sopsDecryptArgs q, sopsEncryptArgs key q])).count
      (sopsDecryptArgs p) = paths.count p := by
  induction paths with
  | nil => rfl
  | cons q rest ih =>
    simp only [sopsDecryptArgs, sopsEncryptArgs] at ih
    by_cases hq : q = p
    · subst hq
      simp [List.count_cons, sopsDecryptArgs, sopsEncryptArgs, ih]
    · simp [List.count_cons, sopsDecryptArgs, sopsEncryptArgs, hq, Ne.symm hq, ih]

theorem count_trace_encrypt (key p : String) (paths : List String) :
    (paths.flatMap (fun q => [sopsDecryptArgs q, sopsEncryptArgs key q])).count
      (sopsEncryptArgs key p) = paths.count p := by
  induction paths with
  | nil => rfl
  | cons q rest ih =>
    simp only [sopsDecryptArgs, sopsEncryptArgs] at ih
    by_cases hq : q = p
    · subst hq
      simp [List.count_cons, sopsDecryptArgs, sopsEncryptArgs, ih]
    · simp [List.count_cons, sopsDecryptArgs, sopsEncryptArgs, hq, Ne.symm hq, ih]

/-- Claim C10: `rotate_kms_keys` consumes only the path list - no file is
opened or parsed, since the function takes no file contents at all - and,
whenever the tool calls spawn, its trace is exactly one decrypt invocation
followed by one encrypt invocation per list element, in list order; hence
each path is decrypted and encrypted as many times as it occurs in the
list - a path listed twice is rotated twice. -/
theorem claim_c10 (tool : List String → Except IoError SopsOutput) (key : String)
    (paths : List String) (h : ∀ a, ∃ o, tool a = Except.ok o) :
    (rotate_kms_keys tool key paths).2
      = paths.flatMap (fun p => [sopsDecryptArgs p, sopsEncryptArgs key p])
  ∧ ∀ p : String,
      (rotate_kms_keys tool key paths).2.count (sopsDecryptArgs p) = paths.count p
    ∧ (rotate_kms_keys tool key paths).2.count (sopsEncryptArgs key p) = paths.count p := by
  have htr : (rotate_kms_keys tool key paths).2
      = paths.flatMap (fun p => [sopsDecryptArgs p, sopsEncryptArgs key p]) := by
    induction paths with
    | nil => rfl
    | cons p rest ih =>
      obtain ⟨o1, h1⟩ := h (sopsDecryptArgs p)
      obtain ⟨o2, h2⟩ := h (sopsEncryptArgs key p)
      simp [rotate_kms_keys, h1, h2, ih]
  refine ⟨htr, fun p => ?_⟩
  rw [htr]
  exact ⟨count_trace_decrypt key p paths, count_trace_encrypt key p paths⟩

/-- Witness for claim C10: with an always-spawning tool and the same path
listed twice, the trace holds two decrypt and two encrypt invocations for
that path. -/
theorem claim_c10_witness :
    (rotate_kms_keys (fun _ => Except.ok ⟨0⟩) "k" ["a-sops.yml", "a-sops.yml"]).2
      = (["a-sops.yml", "a-sops.yml"].flatMap
          (fun p => [sopsDecryptArgs p, sopsEncryptArgs "k" p]))
  ∧ (rotate_kms_keys (fun _ => Except.ok ⟨0⟩) "k" ["a-sops.yml", "a-sops.yml"]).2.count
      (sopsDecryptArgs "a-sops.yml") = 2 := by
  have h := claim_c10 (fun _ => Except.ok ⟨0⟩) "k" ["a-sops.yml", "a-sops.yml"]
    (fun _ => ⟨⟨0⟩, rfl⟩)
  refine ⟨h.1, ?_⟩
  have h2 := (h.2 "a-sops.yml").1
  rw [h2]
  decide
